import Mathlib

/-!
# libgit2pp: `Commit` and `Repository` wrappers

A shallow embedding of `src/commit.cpp` and `src/repository.cpp`, followed by
the properties proved about it.

Conventions of the embedding

* `std::string` is a list of characters (`Str`).  Strings hold no NUL, so a
  `const char*` handed to or received from the native library is the same
  list; a nullable `const char*` argument is an `Option Str`.
* `std::string::npos` is `none`: the searching members return `Option Nat`.
* A C++ function that can throw returns `Except Thrown _`; when the state it
  leaves behind matters the state is returned next to the outcome.
* The native library (libgit2) is not part of the repository.  Its entry
  points are fields of `Env`, whose results are unconstrained.  The calls that
  open, create, free or search for a repository or create a commit are
  recorded, with their arguments, in a `World`; read-only queries are not.
-/

namespace git2

/-! ## Strings -/

/-- Contents of a `std::string`. -/
abbrev Str := List Char

/-- What a C++ call can throw in the embedded code. -/
inductive Thrown where
  /-- The `git2::Exception` thrown by `Exception::assert`, with the native status. -/
  | git (status : Int)
  /-- The `std::out_of_range` thrown by `std::string::substr`. -/
  | out_of_range
  deriving DecidableEq, Repr

/-- `s.substr(pos, n)`: throws when `pos > s.size()`, otherwise the at most `n`
characters starting at `pos`. -/
def substr (s : Str) (pos n : Nat) : Except Thrown Str :=
  if pos > s.length then .error .out_of_range else .ok ((s.drop pos).take n)

/-- `s.substr(pos)`, the count defaulting to `npos`: everything from `pos` on. -/
def substrFrom (s : Str) (pos : Nat) : Except Thrown Str :=
  if pos > s.length then .error .out_of_range else .ok (s.drop pos)

/-- `s.find_first_of(chars)`: position of the first character of `s` that occurs
in `chars`, `none` for `npos`. -/
def find_first_of : Str → Str → Option Nat
  | [], _ => none
  | c :: cs, chars =>
    if c ∈ chars then some 0 else (find_first_of cs chars).map (· + 1)

/-- `s.rfind(ch)`: position of the last occurrence of `ch` in `s`, `none` for
`npos`. -/
def rfind : Str → Char → Option Nat
  | [], _ => none
  | c :: cs, ch =>
    match rfind cs ch with
    | some i => some (i + 1)
    | none => if c = ch then some 0 else none

/-! ## Commit -/

/-- The native commit object behind a `git_commit*`; `message` is what
`git_commit_message` returns for it. -/
structure git_commit where
  addr : Nat
  message : Str
  deriving DecidableEq, Repr

/-- `git2::Commit`: a wrapper around a resolved `git_commit*`. -/
structure Commit where
  data : git_commit
  deriving DecidableEq, Repr

/-- `Commit::constData()`. -/
def Commit.constData (self : Commit) : git_commit := self.data

/-- `Commit::message()`: `std::string(git_commit_message(data()))`. -/
def Commit.message (self : Commit) : Str := self.data.message

/-- The argument `"\r\n"` of `find_first_of` in `Commit::shortMessage`. -/
def crlf : Str := ['\r', '\n']

/-- `Commit::shortMessage(maxLen)`. -/
def Commit.shortMessage (self : Commit) (maxLen : Nat) : Except Thrown Str :=
  match substr self.message 0 maxLen with
  | .error e => .error e
  | .ok msg =>
    match find_first_of msg crlf with
    | some idx => substr msg 0 idx
    | none => .ok msg

/-- A character that is neither carriage-return nor line-feed. -/
def notLineBreak (c : Char) : Bool := !(c == '\r' || c == '\n')

/-! ## The platform, `Exception::assert` and the native library -/

/-- The macro `GIT2PP_PATH_DIRECTORY_SEPARATOR` of `repository.cpp`: a backslash
when `GIT_WIN32` is defined, a slash otherwise. -/
def GIT2PP_PATH_DIRECTORY_SEPARATOR (GIT_WIN32 : Bool) : Char :=
  if GIT_WIN32 then '\\' else '/'

/-- Modelled from the spec: `Exception::assert` (its definition, in the
exception unit, is not among the sources).  "Every call into the wrapped
library returns a status code; any non-success status is converted into a
thrown error carrying the native error code".  Which statuses are errors is
the parameter `isError`; a status that is no error is handed back to the
caller, who compares it (`Exception::assert(...) == 1`). -/
def Exception.assert (isError : Int → Bool) (ret : Int) : Except Thrown Int :=
  if isError ret then .error (.git ret) else .ok ret

/-- A `git_repository*`: `none` is `NULL`, `some a` the repository at address `a`. -/
abbrev git_repository_ptr := Option Nat

/-- A `git_strarray`: `count` and the C array `strings`, read by index. -/
structure git_strarray where
  strings : Nat → Str
  count : Nat

/-- Modelled from the spec: `OId` (not among the sources), the wrapper of a
fixed-size content hash that names an object. -/
structure OId where
  data : List Nat
  deriving DecidableEq, Repr

/-- Modelled from the spec: `Signature` (not among the sources), the wrapper of
a native author or committer identity; `data` is the native handle. -/
structure Signature where
  data : Nat
  deriving DecidableEq, Repr

/-- Modelled from the spec: `Tree` (not among the sources), the wrapper of a
resolved native tree object; `data` is the native handle. -/
structure Tree where
  data : Nat
  deriving DecidableEq, Repr

/-- The arguments of `git_commit_create` after the output identifier, in the
order of the call in `Repository::createCommit`. -/
structure CommitCreateArgs where
  repo : git_repository_ptr
  update_ref : Option Str
  author : Nat
  committer : Nat
  message_encoding : Option Str
  message : Str
  tree : Nat
  parent_count : Nat
  parents : List git_commit
  deriving DecidableEq, Repr

/-- A state-changing call into the native library, with its arguments. -/
inductive NativeCall where
  | git_repository_free (repo : git_repository_ptr)
  | git_repository_discover (size : Nat) (start_path : Str) (across_fs : Bool)
      (ceiling_dirs : Str)
  | git_repository_init (path : Str) (is_bare : Bool)
  | git_repository_open (path : Str)
  | git_commit_create (args : CommitCreateArgs)
  deriving DecidableEq, Repr

/-- The native calls made so far, oldest first. -/
abbrev World := List NativeCall

/-- Everything the embedded code takes from outside the two source files: the
build configuration, the error predicate of `Exception::assert`, and the
entry points of the native library.  A native result may depend on the calls
made before it (the `World`) and on the arguments; nothing else is assumed. -/
structure Env where
  /-- Whether `GIT_WIN32` is defined. -/
  GIT_WIN32 : Bool
  /-- The native macro `GIT_PATH_LIST_SEPARATOR`. -/
  GIT_PATH_LIST_SEPARATOR : Char
  /-- The native macro `GIT_PATH_MAX`. -/
  GIT_PATH_MAX : Nat
  /-- The native constant `GIT_REF_LISTALL`. -/
  GIT_REF_LISTALL : Nat
  /-- The statuses `Exception::assert` turns into a thrown error. -/
  isError : Int → Bool
  /-- Status and the contents of the output buffer. -/
  git_repository_discover : World → Nat → Str → Bool → Str → Int × Str
  /-- Status and the value written to the output handle. -/
  git_repository_init : World → Str → Bool → Int × git_repository_ptr
  /-- Status and the value written to the output handle. -/
  git_repository_open : World → Str → Int × git_repository_ptr
  git_repository_head_detached : World → git_repository_ptr → Int
  git_repository_head_orphan : World → git_repository_ptr → Int
  git_repository_is_empty : World → git_repository_ptr → Int
  git_repository_is_bare : World → git_repository_ptr → Int
  git_repository_path : World → git_repository_ptr → Str
  git_repository_workdir : World → git_repository_ptr → Str
  /-- Status and the identifier written to the output `git_oid`. -/
  git_commit_create : World → CommitCreateArgs → Int × OId
  /-- Status and the array written to the output; arguments pattern, repository. -/
  git_tag_list_match : World → Str → git_repository_ptr → Int × git_strarray
  /-- Status and the array written to the output; arguments repository, flags. -/
  git_reference_list : World → git_repository_ptr → Nat → Int × git_strarray

/-! ## The shared handle of a `Repository` -/

/-- The two deleters of `repository.cpp`. -/
inductive Deleter where
  /-- Calls `git_repository_free`. -/
  | GitRepositoryDeleter
  /-- Does nothing. -/
  | GitRepositoryNoDeleter
  deriving DecidableEq, Repr

/-- `Deleter::operator()(repo)`. -/
def Deleter.call (d : Deleter) (repo : git_repository_ptr) (w : World) : World :=
  match d with
  | .GitRepositoryDeleter => w ++ [.git_repository_free repo]
  | .GitRepositoryNoDeleter => w

/-- What a non-empty `std::shared_ptr<git_repository>` refers to: the stored
pointer, the deleter it was built with, and the number of `shared_ptr`
instances sharing it (this one included). -/
structure Shared where
  ptr : git_repository_ptr
  deleter : Deleter
  use_count : Nat
  deriving DecidableEq, Repr

/-- `Repository::ptr_type`, a `std::shared_ptr<git_repository>`; `none` is the
empty pointer. -/
abbrev ptr_type := Option Shared

/-- `ptr_type(repository, deleter)`: a fresh pointer, sole owner of `repository`. -/
def ptr_type.make (repository : git_repository_ptr) (d : Deleter) : ptr_type :=
  some ⟨repository, d, 1⟩

/-- `p.get()`. -/
def ptr_type.get : ptr_type → git_repository_ptr
  | none => none
  | some s => s.ptr

/-- The native calls caused by `p` giving up its share: the deleter runs when
`p` is the last owner. -/
def ptr_type.release (p : ptr_type) (w : World) : World :=
  match p with
  | none => w
  | some s => if s.use_count ≤ 1 then s.deleter.call s.ptr w else w

/-- `p.reset()`: `p` gives up its share and becomes empty. -/
def ptr_type.reset (p : ptr_type) (w : World) : ptr_type × World :=
  (none, p.release w)

/-- `p = q` for a temporary `q`: `p` gives up its share and takes over `q`. -/
def ptr_type.assign (p q : ptr_type) (w : World) : ptr_type × World :=
  (q, p.release w)

/-- `git2::Repository`: its only member is `_repo`. -/
structure Repository where
  _repo : ptr_type
  deriving DecidableEq, Repr

/-- `Repository::Repository(repository, own)`. -/
def Repository.new (repository : git_repository_ptr) (own : Bool) : Repository :=
  if own then
    ⟨ptr_type.make repository .GitRepositoryDeleter⟩
  else
    ⟨ptr_type.make repository .GitRepositoryNoDeleter⟩

/-- `Repository::data()`. -/
def Repository.data (self : Repository) : git_repository_ptr := self._repo.get

/-! ## `Repository::discover` -/

/-- `std::string(p)` for a `char*` into a buffer: the characters before the
first NUL. -/
def cstr (buf : Str) : Str := buf.takeWhile (fun c => c != '\x00')

/-- The `while(++iter != ceilingDirs.end())` loop of `Repository::discover`:
`rest` is what the iterator has not visited yet, `joined` the accumulator. -/
def joinLoop (sep : Char) : List Str → Str → Str
  | [], joined => joined
  | d :: rest, joined => joinLoop sep rest ((joined ++ [sep]) ++ d)

/-- The value of `joinedCeilingDirs` when `git_repository_discover` is called. -/
def joinedCeilingDirs (sep : Char) (ceilingDirs : List Str) : Str :=
  match ceilingDirs with
  | [] => []
  | first :: rest => joinLoop sep rest first

/-- `Repository::discover(startPath, acrossFs, ceilingDirs)`. -/
def Repository.discover (env : Env) (startPath : Str) (acrossFs : Bool)
    (ceilingDirs : List Str) (w : World) : Except Thrown Str × World :=
  let repoPath : Str := List.replicate env.GIT_PATH_MAX '\x00'
  let joined := joinedCeilingDirs env.GIT_PATH_LIST_SEPARATOR ceilingDirs
  let r := env.git_repository_discover w repoPath.length startPath acrossFs joined
  let w1 := w ++ [.git_repository_discover repoPath.length startPath acrossFs joined]
  match Exception.assert env.isError r.1 with
  | .error e => (.error e, w1)
  | .ok _ => (.ok (cstr r.2), w1)

/-- The join of the specification: nothing for the empty list, the element for a
one-element list, and otherwise the first element, one separator, and the
join of the remaining elements. -/
def specJoin (sep : Char) : List Str → Str
  | [] => []
  | [d] => d
  | d :: e :: rest => d ++ sep :: specJoin sep (e :: rest)

/-! ## `Repository::init` and `Repository::open`

The two bodies are run statement by statement, so that the state between two
statements can be spoken about. -/

/-- The state while a body of `init` or `open` runs: the member `_repo`, the
local `repo`, the native calls made, and the exception in flight, if any. -/
structure Frame where
  _repo : ptr_type
  repo : git_repository_ptr
  world : World
  thrown : Option Thrown
  deriving DecidableEq, Repr

/-- The statements of the two bodies. -/
inductive Stmt where
  /-- `_repo.reset();` -/
  | reset
  /-- `git_repository *repo = NULL;` -/
  | declRepo
  /-- `Exception::assert(git_repository_init(&repo, path.c_str(), isBare));` -/
  | assertInit (path : Str) (isBare : Bool)
  /-- `Exception::assert(git_repository_open(&repo, path.c_str()));` -/
  | assertOpen (path : Str)
  /-- `_repo = ptr_type(repo, GitRepositoryDeleter());` -/
  | assignOwned
  deriving DecidableEq, Repr

/-- The frame after `Exception::assert(r.1)`, for a native call recorded as
`call` that returned the status `r.1` and wrote `r.2` to `repo`. -/
def Frame.afterCall (env : Env) (f : Frame) (call : NativeCall)
    (r : Int × git_repository_ptr) : Frame :=
  match Exception.assert env.isError r.1 with
  | .error e => { f with repo := r.2, world := f.world ++ [call], thrown := some e }
  | .ok _ => { f with repo := r.2, world := f.world ++ [call] }

/-- One statement.  With an exception in flight nothing more is executed. -/
def Stmt.exec (env : Env) (st : Stmt) (f : Frame) : Frame :=
  match f.thrown with
  | some _ => f
  | none =>
    match st with
    | .reset =>
      let r := f._repo.reset f.world
      { f with _repo := r.1, world := r.2 }
    | .declRepo => { f with repo := none }
    | .assertInit path isBare =>
      f.afterCall env (.git_repository_init path isBare)
        (env.git_repository_init f.world path isBare)
    | .assertOpen path =>
      f.afterCall env (.git_repository_open path) (env.git_repository_open f.world path)
    | .assignOwned =>
      let r := f._repo.assign (ptr_type.make f.repo .GitRepositoryDeleter) f.world
      { f with _repo := r.1, world := r.2 }

/-- The frames a body goes through, the starting frame first. -/
def run (env : Env) : List Stmt → Frame → List Frame
  | [], f => [f]
  | st :: rest, f => f :: run env rest (st.exec env f)

/-- The frame a body ends in. -/
def finish (env : Env) : List Stmt → Frame → Frame
  | [], f => f
  | st :: rest, f => finish env rest (st.exec env f)

/-- The frame in which a method of `self` starts. -/
def Frame.enter (self : Repository) (w : World) : Frame :=
  ⟨self._repo, none, w, none⟩

/-- What a method leaves behind: its outcome, the wrapper and the world. -/
def Frame.leave (f : Frame) : Except Thrown Unit × Repository × World :=
  match f.thrown with
  | some e => (.error e, ⟨f._repo⟩, f.world)
  | none => (.ok (), ⟨f._repo⟩, f.world)

/-- The body of `Repository::init(path, isBare)`. -/
def Repository.initBody (path : Str) (isBare : Bool) : List Stmt :=
  [.reset, .declRepo, .assertInit path isBare, .assignOwned]

/-- The body of `Repository::open(path)`. -/
def Repository.openBody (path : Str) : List Stmt :=
  [.reset, .declRepo, .assertOpen path, .assignOwned]

/-- `Repository::init(path, isBare)`. -/
def Repository.init (env : Env) (self : Repository) (path : Str) (isBare : Bool)
    (w : World) : Except Thrown Unit × Repository × World :=
  (finish env (Repository.initBody path isBare) (Frame.enter self w)).leave

/-- `Repository::open(path)`. -/
def Repository.open (env : Env) (self : Repository) (path : Str)
    (w : World) : Except Thrown Unit × Repository × World :=
  (finish env (Repository.openBody path) (Frame.enter self w)).leave

/-! ## State queries and `Repository::name` -/

/-- `Repository::isHeadDetached()`. -/
def Repository.isHeadDetached (env : Env) (self : Repository) (w : World) :
    Except Thrown Bool :=
  (Exception.assert env.isError (env.git_repository_head_detached w self._repo.get)).map
    (fun v => v == 1)

/-- `Repository::isHeadOrphan()`. -/
def Repository.isHeadOrphan (env : Env) (self : Repository) (w : World) :
    Except Thrown Bool :=
  (Exception.assert env.isError (env.git_repository_head_orphan w self._repo.get)).map
    (fun v => v == 1)

/-- `Repository::isEmpty()`. -/
def Repository.isEmpty (env : Env) (self : Repository) (w : World) :
    Except Thrown Bool :=
  (Exception.assert env.isError (env.git_repository_is_empty w self._repo.get)).map
    (fun v => v == 1)

/-- `Repository::isBare()`. -/
def Repository.isBare (env : Env) (self : Repository) (w : World) :
    Except Thrown Bool :=
  (Exception.assert env.isError (env.git_repository_is_bare w self._repo.get)).map
    (fun v => v == 1)

/-- `Repository::path()`. -/
def Repository.path (env : Env) (self : Repository) (w : World) : Str :=
  env.git_repository_path w self._repo.get

/-- `Repository::workDirPath()`. -/
def Repository.workDirPath (env : Env) (self : Repository) (w : World) : Str :=
  env.git_repository_workdir w self._repo.get

/-- `Repository::name()`. -/
def Repository.name (env : Env) (self : Repository) (w : World) : Except Thrown Str :=
  match self.isBare env w with
  | .error e => .error e
  | .ok bare =>
    let repoPath := if bare then self.path env w else self.workDirPath env w
    match rfind repoPath (GIT2PP_PATH_DIRECTORY_SEPARATOR env.GIT_WIN32) with
    | none => .ok repoPath
    | some pos =>
      if pos + 1 < repoPath.length then substrFrom repoPath (pos + 1) else .ok []

/-! ## `Repository::createCommit` -/

/-- The range-for loop of `Repository::createCommit`: `p.push_back` of the
handle of every parent, in iteration order. -/
def pushParents : List Commit → List git_commit → List git_commit
  | [], p => p
  | parent :: rest, p => pushParents rest (p ++ [parent.constData])

/-- The arguments `Repository::createCommit` gives to `git_commit_create`. -/
def Repository.createCommitArgs (self : Repository) (ref : Str) (author committer : Signature)
    (message : Str) (tree : Tree) (parents : List Commit) : CommitCreateArgs :=
  let p := pushParents parents []
  { repo := self._repo.get
    update_ref := some ref
    author := author.data
    committer := committer.data
    message_encoding := none
    message := message
    tree := tree.data
    parent_count := p.length
    parents := p }

/-- `Repository::createCommit(ref, author, committer, message, tree, parents)`. -/
def Repository.createCommit (env : Env) (self : Repository) (ref : Str)
    (author committer : Signature) (message : Str) (tree : Tree) (parents : List Commit)
    (w : World) : Except Thrown OId × World :=
  let args := self.createCommitArgs ref author committer message tree parents
  let r := env.git_commit_create w args
  let w1 := w ++ [.git_commit_create args]
  match Exception.assert env.isError r.1 with
  | .error e => (.error e, w1)
  | .ok _ => (.ok r.2, w1)

/-! ## `Repository::listTags` and `Repository::listReferences` -/

/-- The loop `for(size_t i = 0; i < a.count; ++i) list.push_back(a.strings[i])`,
from index `i` with the list built so far. -/
def copyStrings (a : git_strarray) (i : Nat) (list : List Str) : List Str :=
  if i < a.count then copyStrings a (i + 1) (list ++ [a.strings i]) else list
termination_by a.count - i

/-- `Repository::listTags(pattern)`. -/
def Repository.listTags (env : Env) (self : Repository) (pattern : Str) (w : World) :
    Except Thrown (List Str) :=
  let r := env.git_tag_list_match w pattern self._repo.get
  match Exception.assert env.isError r.1 with
  | .error e => .error e
  | .ok _ => .ok (copyStrings r.2 0 [])

/-- `Repository::listReferences()`. -/
def Repository.listReferences (env : Env) (self : Repository) (w : World) :
    Except Thrown (List Str) :=
  let r := env.git_reference_list w self._repo.get env.GIT_REF_LISTALL
  match Exception.assert env.isError r.1 with
  | .error e => .error e
  | .ok _ => .ok (copyStrings r.2 0 [])

/-! ## A concrete environment

A POSIX build against a native library that reports errors as negative
statuses, used to evaluate the embedding on concrete inputs. -/

/-- A two-element native string array. -/
def sampleTags : git_strarray :=
  ⟨fun i => if i = 0 then "v2".toList else if i = 1 then "v1".toList else [], 2⟩

/-- The sample environment.  Its repository `1` is a non-bare repository with
working directory `/foo/bar/`, its repository `2` a bare one at `/srv/repo.git`;
opening `/missing` and initialising `/readonly/x` fail, an empty pattern is
refused, and `git_commit_create` rejects an empty reference name as it
rejects any invalid one. -/
def posix : Env where
  GIT_WIN32 := false
  GIT_PATH_LIST_SEPARATOR := ':'
  GIT_PATH_MAX := 8
  GIT_REF_LISTALL := 7
  isError := fun s => decide (s < 0)
  git_repository_discover := fun _ _ start _ _ => (0, start ++ ['/', '\x00', '\x00'])
  git_repository_init := fun _ path _ =>
    if path = "/readonly/x".toList then (-4, none) else (0, some 3)
  git_repository_open := fun _ path => if path = "/missing".toList then (-3, none) else (0, some 1)
  git_repository_head_detached := fun _ _ => 0
  git_repository_head_orphan := fun _ _ => 2
  git_repository_is_empty := fun _ _ => 1
  git_repository_is_bare := fun _ repo => if repo = some 2 then 1 else if repo = none then -1 else 0
  git_repository_path := fun _ repo =>
    if repo = some 2 then "/srv/repo.git".toList else "/foo/bar/.git/".toList
  git_repository_workdir := fun _ _ => "/foo/bar/".toList
  git_commit_create := fun _ args =>
    if args.update_ref = some [] then (-1, ⟨[]⟩) else (0, ⟨[args.parent_count]⟩)
  git_tag_list_match := fun _ pattern _ => if pattern = [] then (-1, ⟨fun _ => [], 0⟩) else (0, sampleTags)
  git_reference_list := fun _ _ _ => (0, sampleTags)

/-- The message `fix: a`, a line feed, `body`. -/
def sampleCommit : Commit := ⟨⟨1, "fix: a\nbody".toList⟩⟩

/-- A Windows build: backslash and semicolon as separators, working directory
`C:\foo\bar`. -/
def win32 : Env :=
  { posix with
    GIT_WIN32 := true
    GIT_PATH_LIST_SEPARATOR := ';'
    git_repository_workdir := fun _ _ => "C:\\foo\\bar".toList }

/-- The sample environment with a `git_commit_create` that accepts every
reference name and writes the identifier `42`. -/
def lenient : Env :=
  { posix with git_commit_create := fun _ _ => (0, ⟨[42]⟩) }

/-! ## Lemmas on the string primitives -/

theorem find_first_of_none {s chars : Str} (h : find_first_of s chars = none) :
    ∀ c ∈ s, c ∉ chars := by
  induction s with
  | nil => simp
  | cons a t ih =>
    simp only [find_first_of] at h
    split at h
    · simp at h
    · rename_i ha
      simp only [Option.map_eq_none'] at h
      intro c hc
      rcases List.mem_cons.mp hc with rfl | hc
      · exact ha
      · exact ih h c hc

theorem find_first_of_some {s chars : Str} {i : Nat} (h : find_first_of s chars = some i) :
    i < s.length ∧ (∀ c ∈ s.take i, c ∉ chars) ∧
      ∃ c rest, c ∈ chars ∧ s = s.take i ++ c :: rest := by
  induction s generalizing i with
  | nil => simp [find_first_of] at h
  | cons a t ih =>
    simp only [find_first_of] at h
    split at h
    · rename_i ha
      simp only [Option.some.injEq] at h
      subst h
      exact ⟨by simp, by simp, a, t, ha, by simp⟩
    · rename_i ha
      simp only [Option.map_eq_some'] at h
      obtain ⟨j, hj, rfl⟩ := h
      obtain ⟨h1, h2, c, rest, hc, hrest⟩ := ih hj
      refine ⟨by simpa using h1, ?_, c, rest, hc, ?_⟩
      · intro x hx
        simp only [List.take_succ_cons, List.mem_cons] at hx
        rcases hx with rfl | hx
        · exact ha
        · exact h2 x hx
      · simp only [List.take_succ_cons, List.cons_append]
        exact congrArg _ hrest

theorem mem_crlf (c : Char) : c ∈ crlf ↔ (c = '\r' ∨ c = '\n') := by
  simp [crlf]

theorem notLineBreak_iff (c : Char) : notLineBreak c = true ↔ c ∉ crlf := by
  simp [notLineBreak, crlf]

/-- The value computed by `Commit::shortMessage`, in closed form. -/
theorem shortMessage_eq (c : Commit) (maxLen : Nat) :
    c.shortMessage maxLen = .ok ((c.message.take maxLen).takeWhile notLineBreak) := by
  unfold Commit.shortMessage substr
  simp only [gt_iff_lt, Nat.not_lt_zero, if_false, List.drop_zero]
  cases hf : find_first_of (c.message.take maxLen) crlf with
  | none =>
    simp only
    have hall := find_first_of_none hf
    congr 1
    symm
    rw [List.takeWhile_eq_self_iff]
    intro x hx
    exact (notLineBreak_iff x).mpr (hall x hx)
  | some idx =>
    simp only
    obtain ⟨_, hpre, ch, rest, hch, hsplit⟩ := find_first_of_some hf
    congr 1
    conv_rhs => rw [hsplit]
    rw [List.takeWhile_append_of_pos]
    · simp [List.takeWhile_cons, (notLineBreak_iff ch).not.mpr (not_not.mpr hch)]
    · intro x hx
      exact (notLineBreak_iff x).mpr (hpre x hx)

/-- A list splits at the first element failing `p`, unless none fails. -/
theorem takeWhile_split (p : Char → Bool) (l : Str) :
    (∀ x ∈ l, p x = true) ∧ l.takeWhile p = l ∨
      ∃ x rest, p x = false ∧ l = l.takeWhile p ++ x :: rest := by
  induction l with
  | nil => left; simp
  | cons a t ih =>
    cases ha : p a with
    | false => right; exact ⟨a, t, ha, by simp [List.takeWhile_cons, ha]⟩
    | true =>
      rcases ih with ⟨h1, h2⟩ | ⟨x, rest, hx, hsplit⟩
      · left
        refine ⟨?_, by simp [List.takeWhile_cons, ha, h2]⟩
        intro y hy
        rcases List.mem_cons.mp hy with rfl | hy
        · exact ha
        · exact h1 y hy
      · right
        refine ⟨x, rest, hx, ?_⟩
        simp only [List.takeWhile_cons, ha, if_true, List.cons_append]
        exact congrArg _ hsplit

theorem notLineBreak_false (c : Char) : notLineBreak c = false ↔ (c = '\r' ∨ c = '\n') := by
  simp only [notLineBreak, Bool.not_eq_false', Bool.or_eq_true, beq_iff_eq]

theorem notLineBreak_true (c : Char) : notLineBreak c = true ↔ (c ≠ '\r' ∧ c ≠ '\n') := by
  simp [notLineBreak]

/-! ## Commit::shortMessage -/

/-- C1. `Commit::shortMessage(maxLen)` returns, without throwing, a prefix `r` of
the message of length at most `maxLen`: the first `maxLen` characters cut at
their first carriage-return or line-feed.  `r` holds no line break; if the
first `maxLen` characters hold one, they are `r`, that line break, and a
rest; if they hold none, `r` is all of them, and all of the message when the
message is no longer than `maxLen`. -/
theorem shortMessage_spec (c : Commit) (maxLen : Nat) :
    ∃ r, c.shortMessage maxLen = .ok r ∧
      r <+: c.message ∧ r.length ≤ maxLen ∧
      r <+: c.message.take maxLen ∧
      (∀ ch ∈ r, ch ≠ '\r' ∧ ch ≠ '\n') ∧
      ((∃ ch ∈ c.message.take maxLen, ch = '\r' ∨ ch = '\n') →
        ∃ ch rest, (ch = '\r' ∨ ch = '\n') ∧ c.message.take maxLen = r ++ ch :: rest) ∧
      ((∀ ch ∈ c.message.take maxLen, ch ≠ '\r' ∧ ch ≠ '\n') →
        r = c.message.take maxLen ∧ (c.message.length ≤ maxLen → r = c.message)) := by
  refine ⟨_, shortMessage_eq c maxLen, ?_, ?_, ?_, ?_, ?_, ?_⟩
  · exact (List.takeWhile_prefix _).trans (List.take_prefix _ _)
  · calc ((c.message.take maxLen).takeWhile notLineBreak).length
        ≤ (c.message.take maxLen).length := (List.takeWhile_prefix _).length_le
      _ ≤ maxLen := by simp
  · exact List.takeWhile_prefix _
  · intro ch hch
    exact (notLineBreak_true ch).mp (List.mem_takeWhile_imp hch)
  · rintro ⟨ch, hmem, hch⟩
    rcases takeWhile_split notLineBreak (c.message.take maxLen) with ⟨hall, _⟩ | ⟨x, rest, hx, hs⟩
    · have := hall ch hmem
      rw [(notLineBreak_false ch).mpr hch] at this
      exact absurd this (by simp)
    · exact ⟨x, rest, (notLineBreak_false x).mp hx, hs⟩
  · intro hnone
    have heq : (c.message.take maxLen).takeWhile notLineBreak = c.message.take maxLen := by
      rw [List.takeWhile_eq_self_iff]
      intro x hx
      exact (notLineBreak_true x).mpr (hnone x hx)
    exact ⟨heq, fun hlen => by rw [heq, List.take_of_length_le hlen]⟩

/-- Witness of C1: on `fix: a\nbody` with `maxLen = 9` the first nine characters
hold the line feed and the result is `fix: a`; with `maxLen = 4` they hold
none and the result is `fix:`. -/
theorem shortMessage_spec_witness :
    sampleCommit.shortMessage 9 = .ok "fix: a".toList ∧
      sampleCommit.shortMessage 4 = .ok "fix:".toList ∧
      ∃ r, sampleCommit.shortMessage 9 = .ok r ∧ r.length ≤ 9 ∧
        ∃ ch rest, (ch = '\r' ∨ ch = '\n') ∧ sampleCommit.message.take 9 = r ++ ch :: rest := by
  refine ⟨by rfl, by rfl, ?_⟩
  obtain ⟨r, h1, _, h3, _, _, h6, _⟩ := shortMessage_spec sampleCommit 9
  exact ⟨r, h1, h3, h6 ⟨'\n', by decide, Or.inr rfl⟩⟩

/-- C9. When `maxLen` exceeds the length of the message, `shortMessage(maxLen)`
is the first line of the message: what precedes its first carriage-return or
line-feed, or the whole message when it holds neither; and any two such
`maxLen` give the same result. -/
theorem shortMessage_first_line (c : Commit) (maxLen : Nat)
    (h : c.message.length < maxLen) :
    ∃ r, c.shortMessage maxLen = .ok r ∧
      (∀ ch ∈ r, ch ≠ '\r' ∧ ch ≠ '\n') ∧
      ((∃ ch ∈ c.message, ch = '\r' ∨ ch = '\n') →
        ∃ ch rest, (ch = '\r' ∨ ch = '\n') ∧ c.message = r ++ ch :: rest) ∧
      ((∀ ch ∈ c.message, ch ≠ '\r' ∧ ch ≠ '\n') → r = c.message) ∧
      ∀ maxLen2, c.message.length < maxLen2 → c.shortMessage maxLen2 = .ok r := by
  have htake : ∀ n, c.message.length < n → c.message.take n = c.message :=
    fun n hn => List.take_of_length_le (Nat.le_of_lt hn)
  obtain ⟨r, h1, _, _, _, h5, h6, h7⟩ := shortMessage_spec c maxLen
  rw [htake maxLen h] at h6 h7
  refine ⟨r, h1, h5, h6, fun hn => (h7 hn).1, ?_⟩
  intro n hn
  rw [shortMessage_eq, htake n hn]
  rw [shortMessage_eq, htake maxLen h] at h1
  exact h1

/-- Witness of C9: `fix: a\nbody` has eleven characters; `maxLen = 12` and
`maxLen = 1000` both give `fix: a`. -/
theorem shortMessage_first_line_witness :
    sampleCommit.message.length < 12 ∧
      sampleCommit.shortMessage 12 = .ok "fix: a".toList ∧
      ∃ r, sampleCommit.shortMessage 12 = .ok r ∧ sampleCommit.shortMessage 1000 = .ok r := by
  refine ⟨by decide, by rfl, ?_⟩
  obtain ⟨r, h1, _, _, _, h5⟩ := shortMessage_first_line sampleCommit 12 (by decide)
  exact ⟨r, h1, h5 1000 (by decide)⟩

/-! ## Repository::name -/

theorem rfind_none_of_not_mem {s : Str} {ch : Char} (h : ch ∉ s) : rfind s ch = none := by
  induction s with
  | nil => rfl
  | cons a t ih =>
    have ht : ch ∉ t := fun hm => h (List.mem_cons_of_mem _ hm)
    have ha : a ≠ ch := fun he => h (he ▸ List.mem_cons_self _ _)
    simp [rfind, ih ht, ha]

theorem rfind_last (pre suf : Str) (ch : Char) (h : ch ∉ suf) :
    rfind (pre ++ ch :: suf) ch = some pre.length := by
  induction pre with
  | nil => simp [rfind, rfind_none_of_not_mem h]
  | cons a t ih => simp [rfind, ih]

/-- The value of `Repository::name` once `isBare()` has returned `bare`. -/
theorem name_eq (env : Env) (self : Repository) (w : World) (bare : Bool)
    (hb : self.isBare env w = .ok bare) (p : Str)
    (hp : p = if bare then self.path env w else self.workDirPath env w) :
    (GIT2PP_PATH_DIRECTORY_SEPARATOR env.GIT_WIN32 ∉ p → self.name env w = .ok p) ∧
      ∀ pre suf, p = pre ++ GIT2PP_PATH_DIRECTORY_SEPARATOR env.GIT_WIN32 :: suf →
        GIT2PP_PATH_DIRECTORY_SEPARATOR env.GIT_WIN32 ∉ suf → self.name env w = .ok suf := by
  constructor
  · intro hsep
    simp only [Repository.name, hb, ← hp, rfind_none_of_not_mem hsep]
  · intro pre suf hsplit hsuf
    simp only [Repository.name, hb, ← hp]
    rw [hsplit, rfind_last pre suf _ hsuf]
    simp only [List.length_append, List.length_cons]
    cases suf with
    | nil => simp
    | cons a t =>
      have hlt : pre.length + 1 < pre.length + (t.length + 1 + 1) := by omega
      simp only [hlt, if_true, substrFrom, List.length_append, List.length_cons]
      have hle : ¬ pre.length + 1 > pre.length + (t.length + 1 + 1) := by omega
      simp only [hle, if_false]
      congr 1
      rw [show pre ++ GIT2PP_PATH_DIRECTORY_SEPARATOR env.GIT_WIN32 :: a :: t
        = (pre ++ [GIT2PP_PATH_DIRECTORY_SEPARATOR env.GIT_WIN32]) ++ a :: t by simp]
      exact List.drop_left' (by simp)

theorem separator_not_mem_bar (win : Bool) :
    GIT2PP_PATH_DIRECTORY_SEPARATOR win ∉ "bar".toList := by
  cases win <;> decide

/-- C2. `Repository::name()` throws what `isBare()` throws; once `isBare()` has
returned, it works on the repository path of a bare repository and on the
working-directory path of any other, and on that path `p` returns `p` when
`p` holds no directory separator, what follows the last separator otherwise,
hence the empty string when `p` ends with a separator.  A non-bare
repository with working directory `...SEP foo SEP bar SEP` gives the empty
string, one with `...SEP foo SEP bar` gives `bar`. -/
theorem name_spec (env : Env) (self : Repository) (w : World) :
    (∀ e, self.isBare env w = .error e → self.name env w = .error e) ∧
    (∀ bare, self.isBare env w = .ok bare →
      ∀ p, p = (if bare then self.path env w else self.workDirPath env w) →
        (GIT2PP_PATH_DIRECTORY_SEPARATOR env.GIT_WIN32 ∉ p → self.name env w = .ok p) ∧
        (∀ pre suf, p = pre ++ GIT2PP_PATH_DIRECTORY_SEPARATOR env.GIT_WIN32 :: suf →
          GIT2PP_PATH_DIRECTORY_SEPARATOR env.GIT_WIN32 ∉ suf →
          self.name env w = .ok suf) ∧
        (∀ pre, p = pre ++ [GIT2PP_PATH_DIRECTORY_SEPARATOR env.GIT_WIN32] →
          self.name env w = .ok [])) ∧
    (self.isBare env w = .ok false →
      ∀ pre,
        (self.workDirPath env w =
            pre ++ GIT2PP_PATH_DIRECTORY_SEPARATOR env.GIT_WIN32 :: "foo".toList ++
              GIT2PP_PATH_DIRECTORY_SEPARATOR env.GIT_WIN32 :: "bar".toList ++
              [GIT2PP_PATH_DIRECTORY_SEPARATOR env.GIT_WIN32] →
          self.name env w = .ok []) ∧
        (self.workDirPath env w =
            pre ++ GIT2PP_PATH_DIRECTORY_SEPARATOR env.GIT_WIN32 :: "foo".toList ++
              GIT2PP_PATH_DIRECTORY_SEPARATOR env.GIT_WIN32 :: "bar".toList →
          self.name env w = .ok "bar".toList)) := by
  refine ⟨?_, ?_, ?_⟩
  · intro e he
    simp only [Repository.name, he]
  · intro bare hb p hp
    obtain ⟨h1, h2⟩ := name_eq env self w bare hb p hp
    exact ⟨h1, h2, fun pre hpre => h2 pre [] hpre (List.not_mem_nil _)⟩
  · intro hb pre
    obtain ⟨_, h2⟩ := name_eq env self w false hb (self.workDirPath env w) (by simp)
    constructor
    · intro hw
      exact h2 _ [] hw (List.not_mem_nil _)
    · intro hw
      refine h2 (pre ++ GIT2PP_PATH_DIRECTORY_SEPARATOR env.GIT_WIN32 :: "foo".toList)
        "bar".toList ?_ (separator_not_mem_bar _)
      rw [hw]

/-- Witness of C2 in the sample environment: the bare repository at
`/srv/repo.git` is named `repo.git`, and the non-bare repository with working
directory `/foo/bar/` has the empty name. -/
theorem name_spec_witness :
    (Repository.new (some 2) true).isBare posix [] = .ok true ∧
      (Repository.new (some 2) true).name posix [] = .ok "repo.git".toList ∧
      (Repository.new (some 1) true).isBare posix [] = .ok false ∧
      (Repository.new (some 1) true).name posix [] = .ok [] := by
  refine ⟨by rfl, ?_, by rfl, ?_⟩
  · exact ((name_spec posix (Repository.new (some 2) true) []).2.1 true (by rfl) _ rfl).2.1
      "/srv".toList "repo.git".toList (by rfl) (by decide)
  · exact ((name_spec posix (Repository.new (some 1) true) []).2.2 (by rfl) "".toList).1 (by rfl)

/-! ## The boolean state queries -/

/-- What `Exception::assert(s) == 1` amounts to. -/
theorem assert_eq_one (isError : Int → Bool) (s : Int) :
    (isError s = true →
      (Exception.assert isError s).map (fun v => v == 1) = .error (.git s)) ∧
    (isError s = false →
      ∃ b, (Exception.assert isError s).map (fun v => v == 1) = .ok b ∧ (b = true ↔ s = 1)) := by
  constructor
  · intro h
    simp [Exception.assert, h, Except.map]
  · intro h
    exact ⟨s == 1, by simp [Exception.assert, h, Except.map], by simp⟩

/-- C3. For each of `isHeadDetached`, `isHeadOrphan`, `isEmpty` and `isBare`,
with `s` the status the native query returns: when `s` is an error status the
operation throws, carrying `s`, and returns no boolean; otherwise it returns
a boolean that is true exactly when `s = 1`. -/
theorem state_queries_spec (env : Env) (self : Repository) (w : World) :
    ((env.isError (env.git_repository_head_detached w self._repo.get) = true →
        self.isHeadDetached env w =
          .error (.git (env.git_repository_head_detached w self._repo.get))) ∧
      (env.isError (env.git_repository_head_detached w self._repo.get) = false →
        ∃ b, self.isHeadDetached env w = .ok b ∧
          (b = true ↔ env.git_repository_head_detached w self._repo.get = 1))) ∧
    ((env.isError (env.git_repository_head_orphan w self._repo.get) = true →
        self.isHeadOrphan env w =
          .error (.git (env.git_repository_head_orphan w self._repo.get))) ∧
      (env.isError (env.git_repository_head_orphan w self._repo.get) = false →
        ∃ b, self.isHeadOrphan env w = .ok b ∧
          (b = true ↔ env.git_repository_head_orphan w self._repo.get = 1))) ∧
    ((env.isError (env.git_repository_is_empty w self._repo.get) = true →
        self.isEmpty env w =
          .error (.git (env.git_repository_is_empty w self._repo.get))) ∧
      (env.isError (env.git_repository_is_empty w self._repo.get) = false →
        ∃ b, self.isEmpty env w = .ok b ∧
          (b = true ↔ env.git_repository_is_empty w self._repo.get = 1))) ∧
    ((env.isError (env.git_repository_is_bare w self._repo.get) = true →
        self.isBare env w =
          .error (.git (env.git_repository_is_bare w self._repo.get))) ∧
      (env.isError (env.git_repository_is_bare w self._repo.get) = false →
        ∃ b, self.isBare env w = .ok b ∧
          (b = true ↔ env.git_repository_is_bare w self._repo.get = 1))) :=
  ⟨assert_eq_one _ _, assert_eq_one _ _, assert_eq_one _ _, assert_eq_one _ _⟩

/-- Witness of C3 in the sample environment: status `0` of the detached-head
query gives false, status `2` of the orphan query gives false, status `1` of
the emptiness query gives true, and the error status `-1` the bareness query
reports for a wrapper without handle is thrown. -/
theorem state_queries_spec_witness :
    (Repository.new (some 1) true).isHeadDetached posix [] = .ok false ∧
      (Repository.new (some 1) true).isHeadOrphan posix [] = .ok false ∧
      (Repository.new (some 1) true).isEmpty posix [] = .ok true ∧
      (Repository.mk none).isBare posix [] = .error (.git (-1)) ∧
      ∃ b, (Repository.new (some 1) true).isHeadOrphan posix [] = .ok b ∧
        (b = true ↔ posix.git_repository_head_orphan [] (some 1) = 1) := by
  refine ⟨by rfl, by rfl, by rfl, ?_, ?_⟩
  · exact (state_queries_spec posix (Repository.mk none) []).2.2.2.1 (by rfl)
  · exact (state_queries_spec posix (Repository.new (some 1) true) []).2.1.2 (by rfl)

/-! ## Repository::discover -/

theorem joinLoop_eq (sep : Char) (rest : List Str) (joined : Str) :
    joinLoop sep rest joined =
      match rest with
      | [] => joined
      | d :: ds => joined ++ sep :: specJoin sep (d :: ds) := by
  induction rest generalizing joined with
  | nil => rfl
  | cons d ds ih =>
    simp only [joinLoop]
    rw [ih]
    cases ds with
    | nil => simp [specJoin]
    | cons e es => simp [specJoin]

theorem joinedCeilingDirs_eq_specJoin (sep : Char) (dirs : List Str) :
    joinedCeilingDirs sep dirs = specJoin sep dirs := by
  cases dirs with
  | nil => rfl
  | cons d ds =>
    simp only [joinedCeilingDirs]
    rw [joinLoop_eq]
    cases ds with
    | nil => simp [specJoin]
    | cons e es => simp [specJoin]

theorem specJoin_eq_intercalate (sep : Char) (dirs : List Str) :
    specJoin sep dirs = List.intercalate [sep] dirs := by
  induction dirs with
  | nil => rfl
  | cons d ds ih =>
    cases ds with
    | nil => simp [specJoin, List.intercalate]
    | cons e es =>
      simp only [specJoin] at ih ⊢
      rw [ih]
      simp [List.intercalate, List.intersperse]

theorem specJoin_length (sep : Char) (dirs : List Str) :
    (specJoin sep dirs).length = (dirs.map List.length).sum + (dirs.length - 1) := by
  induction dirs with
  | nil => rfl
  | cons d ds ih =>
    cases ds with
    | nil => simp [specJoin]
    | cons e es =>
      simp only [specJoin, List.length_append, List.length_cons, List.map_cons,
        List.sum_cons] at ih ⊢
      omega

/-- C4. `Repository::discover` makes one native call, `git_repository_discover`,
and gives it the start path and the across-filesystems flag unchanged and,
as ceiling directories, the elements joined by `GIT_PATH_LIST_SEPARATOR`:
the empty string for the empty list, the element itself for a one-element
list, and in general the first element, a separator, and the join of the
others.  The joined string is the elements in order with one separator
between neighbours, so its length is the total length of the elements plus
`n - 1`. -/
theorem discover_spec (env : Env) (startPath : Str) (acrossFs : Bool)
    (ceilingDirs : List Str) (w : World) :
    (Repository.discover env startPath acrossFs ceilingDirs w).2 =
        w ++ [.git_repository_discover env.GIT_PATH_MAX startPath acrossFs
          (joinedCeilingDirs env.GIT_PATH_LIST_SEPARATOR ceilingDirs)] ∧
      joinedCeilingDirs env.GIT_PATH_LIST_SEPARATOR [] = [] ∧
      (∀ d, joinedCeilingDirs env.GIT_PATH_LIST_SEPARATOR [d] = d) ∧
      (∀ d e rest, joinedCeilingDirs env.GIT_PATH_LIST_SEPARATOR (d :: e :: rest) =
        d ++ env.GIT_PATH_LIST_SEPARATOR ::
          joinedCeilingDirs env.GIT_PATH_LIST_SEPARATOR (e :: rest)) ∧
      joinedCeilingDirs env.GIT_PATH_LIST_SEPARATOR ceilingDirs =
        List.intercalate [env.GIT_PATH_LIST_SEPARATOR] ceilingDirs ∧
      (joinedCeilingDirs env.GIT_PATH_LIST_SEPARATOR ceilingDirs).length =
        (ceilingDirs.map List.length).sum + (ceilingDirs.length - 1) := by
  refine ⟨?_, rfl, fun d => rfl, ?_, ?_, ?_⟩
  · simp only [Repository.discover, List.length_replicate]
    split <;> rfl
  · intro d e rest
    simp only [joinedCeilingDirs_eq_specJoin, specJoin]
  · rw [joinedCeilingDirs_eq_specJoin, specJoin_eq_intercalate]
  · rw [joinedCeilingDirs_eq_specJoin, specJoin_length]

/-! ## Repository::init and Repository::open -/

theorem release_none (w : World) : ptr_type.release none w = w := rfl

/-- The frames of a body `reset; declRepo; call; assignOwned` whose native call
reports a status that is no error. -/
theorem run_body_ok (env : Env) (self : Repository) (w : World) (call : Stmt)
    (ev : NativeCall) (r : Int × git_repository_ptr)
    (hcall : call.exec env ⟨none, none, self._repo.release w, none⟩ =
      Frame.afterCall env ⟨none, none, self._repo.release w, none⟩ ev r)
    (hr : env.isError r.1 = false) :
    run env [.reset, .declRepo, call, .assignOwned] (Frame.enter self w) =
      [⟨self._repo, none, w, none⟩,
        ⟨none, none, self._repo.release w, none⟩,
        ⟨none, none, self._repo.release w, none⟩,
        ⟨none, r.2, self._repo.release w ++ [ev], none⟩,
        ⟨ptr_type.make r.2 .GitRepositoryDeleter, r.2, self._repo.release w ++ [ev], none⟩] ∧
    (finish env [.reset, .declRepo, call, .assignOwned] (Frame.enter self w)).leave =
      (.ok (), ⟨ptr_type.make r.2 .GitRepositoryDeleter⟩, self._repo.release w ++ [ev]) := by
  have h1 : Stmt.exec env .reset (Frame.enter self w) =
      ⟨none, none, self._repo.release w, none⟩ := rfl
  have h2 : Stmt.exec env .declRepo ⟨none, none, self._repo.release w, none⟩ =
      ⟨none, none, self._repo.release w, none⟩ := rfl
  have h3 : call.exec env ⟨none, none, self._repo.release w, none⟩ =
      ⟨none, r.2, self._repo.release w ++ [ev], none⟩ := by
    rw [hcall]
    simp [Frame.afterCall, Exception.assert, hr]
  have h4 : Stmt.exec env .assignOwned ⟨none, r.2, self._repo.release w ++ [ev], none⟩ =
      ⟨ptr_type.make r.2 .GitRepositoryDeleter, r.2, self._repo.release w ++ [ev], none⟩ := rfl
  constructor
  · simp only [run, h1, h2, h3, h4]
    rfl
  · simp only [finish, h1, h2, h3, h4]
    rfl

/-- The frames of a body `reset; declRepo; call; assignOwned` whose native call
reports an error status. -/
theorem run_body_error (env : Env) (self : Repository) (w : World) (call : Stmt)
    (ev : NativeCall) (r : Int × git_repository_ptr)
    (hcall : call.exec env ⟨none, none, self._repo.release w, none⟩ =
      Frame.afterCall env ⟨none, none, self._repo.release w, none⟩ ev r)
    (hr : env.isError r.1 = true) :
    run env [.reset, .declRepo, call, .assignOwned] (Frame.enter self w) =
      [⟨self._repo, none, w, none⟩,
        ⟨none, none, self._repo.release w, none⟩,
        ⟨none, none, self._repo.release w, none⟩,
        ⟨none, r.2, self._repo.release w ++ [ev], some (.git r.1)⟩,
        ⟨none, r.2, self._repo.release w ++ [ev], some (.git r.1)⟩] ∧
    (finish env [.reset, .declRepo, call, .assignOwned] (Frame.enter self w)).leave =
      (.error (.git r.1), ⟨none⟩, self._repo.release w ++ [ev]) := by
  have h1 : Stmt.exec env .reset (Frame.enter self w) =
      ⟨none, none, self._repo.release w, none⟩ := rfl
  have h2 : Stmt.exec env .declRepo ⟨none, none, self._repo.release w, none⟩ =
      ⟨none, none, self._repo.release w, none⟩ := rfl
  have h3 : call.exec env ⟨none, none, self._repo.release w, none⟩ =
      ⟨none, r.2, self._repo.release w ++ [ev], some (.git r.1)⟩ := by
    rw [hcall]
    simp [Frame.afterCall, Exception.assert, hr]
  have h4 : Stmt.exec env .assignOwned
      ⟨none, r.2, self._repo.release w ++ [ev], some (.git r.1)⟩ =
      ⟨none, r.2, self._repo.release w ++ [ev], some (.git r.1)⟩ := rfl
  constructor
  · simp only [run, h1, h2, h3, h4]
    rfl
  · simp only [finish, h1, h2, h3, h4]
    rfl

theorem exec_assertOpen (env : Env) (path : Str) (f : Frame) (h : f.thrown = none) :
    Stmt.exec env (.assertOpen path) f =
      f.afterCall env (.git_repository_open path) (env.git_repository_open f.world path) := by
  simp [Stmt.exec, h]

theorem exec_assertInit (env : Env) (path : Str) (isBare : Bool) (f : Frame)
    (h : f.thrown = none) :
    Stmt.exec env (.assertInit path isBare) f =
      f.afterCall env (.git_repository_init path isBare)
        (env.git_repository_init f.world path isBare) := by
  simp [Stmt.exec, h]

/-- C5. `Repository::open` and `Repository::init`, from any wrapper state, when
the native call reports a status that is no error.  The body goes through five
frames: the wrapper holds its previous pointer only in the first; after
`_repo.reset()` it is empty, and whatever the reset released was released, in
every frame up to and including the one the native call returns in; the
native call is made in the world after that release; and in the last frame
the wrapper holds the handle `h` the native call wrote, as sole owner with
the freeing deleter.  The release frees the previous handle exactly when the
wrapper was its last owner in owning mode; an empty or a borrowing wrapper
frees nothing. -/
theorem open_init_replace_handle (env : Env) (self : Repository) (w : World)
    (path : Str) (isBare : Bool) :
    (env.isError (env.git_repository_open (self._repo.release w) path).1 = false →
      run env (Repository.openBody path) (Frame.enter self w) =
        [⟨self._repo, none, w, none⟩,
          ⟨none, none, self._repo.release w, none⟩,
          ⟨none, none, self._repo.release w, none⟩,
          ⟨none, (env.git_repository_open (self._repo.release w) path).2,
            self._repo.release w ++ [.git_repository_open path], none⟩,
          ⟨some ⟨(env.git_repository_open (self._repo.release w) path).2,
              .GitRepositoryDeleter, 1⟩,
            (env.git_repository_open (self._repo.release w) path).2,
            self._repo.release w ++ [.git_repository_open path], none⟩] ∧
      Repository.open env self path w =
        (.ok (),
          ⟨some ⟨(env.git_repository_open (self._repo.release w) path).2,
            .GitRepositoryDeleter, 1⟩⟩,
          self._repo.release w ++ [.git_repository_open path])) ∧
    (env.isError (env.git_repository_init (self._repo.release w) path isBare).1 = false →
      run env (Repository.initBody path isBare) (Frame.enter self w) =
        [⟨self._repo, none, w, none⟩,
          ⟨none, none, self._repo.release w, none⟩,
          ⟨none, none, self._repo.release w, none⟩,
          ⟨none, (env.git_repository_init (self._repo.release w) path isBare).2,
            self._repo.release w ++ [.git_repository_init path isBare], none⟩,
          ⟨some ⟨(env.git_repository_init (self._repo.release w) path isBare).2,
              .GitRepositoryDeleter, 1⟩,
            (env.git_repository_init (self._repo.release w) path isBare).2,
            self._repo.release w ++ [.git_repository_init path isBare], none⟩] ∧
      Repository.init env self path isBare w =
        (.ok (),
          ⟨some ⟨(env.git_repository_init (self._repo.release w) path isBare).2,
            .GitRepositoryDeleter, 1⟩⟩,
          self._repo.release w ++ [.git_repository_init path isBare])) ∧
    (self._repo = none → self._repo.release w = w) ∧
    (∀ old n, self._repo = some ⟨old, .GitRepositoryNoDeleter, n⟩ →
      self._repo.release w = w) ∧
    (∀ old n, self._repo = some ⟨old, .GitRepositoryDeleter, n⟩ →
      self._repo.release w = if n ≤ 1 then w ++ [.git_repository_free old] else w) := by
  refine ⟨?_, ?_, ?_, ?_, ?_⟩
  · intro h
    exact run_body_ok env self w (.assertOpen path) _ _ (exec_assertOpen env path _ rfl) h
  · intro h
    exact run_body_ok env self w (.assertInit path isBare) _ _
      (exec_assertInit env path isBare _ rfl) h
  · intro h
    rw [h]
    rfl
  · intro old n h
    rw [h]
    simp [ptr_type.release, Deleter.call]
  · intro old n h
    rw [h]
    simp [ptr_type.release, Deleter.call]

/-- Witness of C5 in the sample environment: a wrapper owning handle `9` opens
`/repo`; handle `9` is freed, then the native open is called, and the
wrapper ends as sole owner of the handle `1` it wrote.  A wrapper borrowing
handle `9` initialises `/new` without freeing anything. -/
theorem open_init_replace_handle_witness :
    Repository.open posix (Repository.new (some 9) true) "/repo".toList [] =
        (.ok (), ⟨some ⟨some 1, .GitRepositoryDeleter, 1⟩⟩,
          [.git_repository_free (some 9), .git_repository_open "/repo".toList]) ∧
      Repository.init posix (Repository.new (some 9) false) "/new".toList true [] =
        (.ok (), ⟨some ⟨some 3, .GitRepositoryDeleter, 1⟩⟩,
          [.git_repository_init "/new".toList true]) := by
  constructor
  · exact ((open_init_replace_handle posix (Repository.new (some 9) true) []
      "/repo".toList true).1 (by rfl)).2
  · exact ((open_init_replace_handle posix (Repository.new (some 9) false) []
      "/new".toList true).2.1 (by rfl)).2

/-- C10. `Repository::open` and `Repository::init` are not atomic on failure.
From any wrapper state, when the native call reports an error status the
operation throws that status, the assignment of `_repo` is never reached, and
the wrapper is left empty: its handle is null whatever it held before, and
what the reset released stays released. -/
theorem open_init_failure_leaves_null (env : Env) (self : Repository) (w : World)
    (path : Str) (isBare : Bool) :
    (env.isError (env.git_repository_open (self._repo.release w) path).1 = true →
      run env (Repository.openBody path) (Frame.enter self w) =
        [⟨self._repo, none, w, none⟩,
          ⟨none, none, self._repo.release w, none⟩,
          ⟨none, none, self._repo.release w, none⟩,
          ⟨none, (env.git_repository_open (self._repo.release w) path).2,
            self._repo.release w ++ [.git_repository_open path],
            some (.git (env.git_repository_open (self._repo.release w) path).1)⟩,
          ⟨none, (env.git_repository_open (self._repo.release w) path).2,
            self._repo.release w ++ [.git_repository_open path],
            some (.git (env.git_repository_open (self._repo.release w) path).1)⟩] ∧
      Repository.open env self path w =
        (.error (.git (env.git_repository_open (self._repo.release w) path).1),
          ⟨none⟩, self._repo.release w ++ [.git_repository_open path]) ∧
      (Repository.open env self path w).2.1.data = none) ∧
    (env.isError (env.git_repository_init (self._repo.release w) path isBare).1 = true →
      run env (Repository.initBody path isBare) (Frame.enter self w) =
        [⟨self._repo, none, w, none⟩,
          ⟨none, none, self._repo.release w, none⟩,
          ⟨none, none, self._repo.release w, none⟩,
          ⟨none, (env.git_repository_init (self._repo.release w) path isBare).2,
            self._repo.release w ++ [.git_repository_init path isBare],
            some (.git (env.git_repository_init (self._repo.release w) path isBare).1)⟩,
          ⟨none, (env.git_repository_init (self._repo.release w) path isBare).2,
            self._repo.release w ++ [.git_repository_init path isBare],
            some (.git (env.git_repository_init (self._repo.release w) path isBare).1)⟩] ∧
      Repository.init env self path isBare w =
        (.error (.git (env.git_repository_init (self._repo.release w) path isBare).1),
          ⟨none⟩, self._repo.release w ++ [.git_repository_init path isBare]) ∧
      (Repository.init env self path isBare w).2.1.data = none) := by
  constructor
  · intro h
    obtain ⟨h1, h2⟩ := run_body_error env self w (.assertOpen path) _ _
      (exec_assertOpen env path _ rfl) h
    refine ⟨h1, h2, ?_⟩
    have h3 : Repository.open env self path w = _ := h2
    rw [h3]
    rfl
  · intro h
    obtain ⟨h1, h2⟩ := run_body_error env self w (.assertInit path isBare) _ _
      (exec_assertInit env path isBare _ rfl) h
    refine ⟨h1, h2, ?_⟩
    have h3 : Repository.init env self path isBare w = _ := h2
    rw [h3]
    rfl

/-- Witness of C10 in the sample environment: a wrapper owning handle `9` fails
to open `/missing`; status `-3` is thrown, handle `9` has been freed, and the
wrapper holds the null handle.  A wrapper borrowing handle `9` fails to
initialise `/readonly/x` and is left empty as well. -/
theorem open_init_failure_leaves_null_witness :
    Repository.open posix (Repository.new (some 9) true) "/missing".toList [] =
        (.error (.git (-3)), ⟨none⟩,
          [.git_repository_free (some 9), .git_repository_open "/missing".toList]) ∧
      (Repository.open posix (Repository.new (some 9) true) "/missing".toList []).2.1.data
        = none ∧
      Repository.init posix (Repository.new (some 9) false) "/readonly/x".toList false [] =
        (.error (.git (-4)), ⟨none⟩, [.git_repository_init "/readonly/x".toList false]) := by
  have h := (open_init_failure_leaves_null posix (Repository.new (some 9) true) []
    "/missing".toList false).1 (by rfl)
  have h2 := (open_init_failure_leaves_null posix (Repository.new (some 9) false) []
    "/readonly/x".toList false).2 (by rfl)
  exact ⟨h.2.1, h.2.2, h2.2.1⟩

/-! ## Repository::createCommit -/

theorem pushParents_eq (parents : List Commit) (p : List git_commit) :
    pushParents parents p = p ++ parents.map Commit.constData := by
  induction parents generalizing p with
  | nil => simp [pushParents]
  | cons c cs ih => simp [pushParents, ih]

theorem createCommit_world (env : Env) (self : Repository) (ref : Str)
    (author committer : Signature) (message : Str) (tree : Tree) (parents : List Commit)
    (w : World) :
    (self.createCommit env ref author committer message tree parents w).2 =
      w ++ [.git_commit_create
        (self.createCommitArgs ref author committer message tree parents)] := by
  simp only [Repository.createCommit]
  split <;> rfl

/-- C7. `Repository::createCommit` makes one native call, `git_commit_create`,
whose parent count is the number of parents given and whose parent array
holds, at every index, the handle of the parent at that index: same order,
nothing dropped, nothing repeated; no parents give the count 0. -/
theorem createCommit_parents (env : Env) (self : Repository) (ref : Str)
    (author committer : Signature) (message : Str) (tree : Tree) (parents : List Commit)
    (w : World) :
    (self.createCommit env ref author committer message tree parents w).2 =
        w ++ [.git_commit_create
          (self.createCommitArgs ref author committer message tree parents)] ∧
      (self.createCommitArgs ref author committer message tree parents).parent_count =
        parents.length ∧
      (self.createCommitArgs ref author committer message tree parents).parents.length =
        parents.length ∧
      (∀ i : Nat,
        (self.createCommitArgs ref author committer message tree parents).parents[i]? =
          parents[i]?.map Commit.constData) ∧
      (self.createCommitArgs ref author committer message tree parents).parents =
        parents.map Commit.constData ∧
      (self.createCommitArgs ref author committer message tree []).parent_count = 0 := by
  refine ⟨createCommit_world .., ?_, ?_, ?_, ?_, rfl⟩
  · simp [Repository.createCommitArgs, pushParents_eq]
  · simp [Repository.createCommitArgs, pushParents_eq]
  · intro i
    simp [Repository.createCommitArgs, pushParents_eq]
  · simp [Repository.createCommitArgs, pushParents_eq]

/-- Counterexample to C6 as stated: in the sample environment, whose native
library refuses the empty reference name like any other invalid name,
`createCommit` with the empty name hands the native call the empty string as
the reference to update (a present argument, not an absent one), throws the
native status `-1`, and returns no identifier. -/
theorem createCommit_empty_ref_counterexample :
    (Repository.createCommit posix (Repository.new (some 1) true) [] ⟨1⟩ ⟨2⟩
        "msg".toList ⟨3⟩ [] []).1 = .error (.git (-1)) ∧
      (¬ ∃ oid, (Repository.createCommit posix (Repository.new (some 1) true) [] ⟨1⟩ ⟨2⟩
        "msg".toList ⟨3⟩ [] []).1 = .ok oid) ∧
      (Repository.createCommit posix (Repository.new (some 1) true) [] ⟨1⟩ ⟨2⟩
        "msg".toList ⟨3⟩ [] []).2 =
        [.git_commit_create ⟨some 1, some [], 1, 2, none, "msg".toList, 3, 0, []⟩] ∧
      (some [] : Option Str) ≠ none := by
  refine ⟨by rfl, ?_, by rfl, by simp⟩
  rintro ⟨oid, h⟩
  have h2 : (Repository.createCommit posix (Repository.new (some 1) true) [] ⟨1⟩ ⟨2⟩
      "msg".toList ⟨3⟩ [] []).1 = .error (.git (-1)) := by rfl
  rw [h2] at h
  cases h

/-- C6, amended. `Repository::createCommit` does nothing to references itself:
it makes one native call, `git_commit_create`, and hands it the reference
name unchanged, so for the empty name the empty string.  When the status of
that call is no error it returns the identifier the call wrote; when it is
an error it throws the status and returns no identifier. -/
theorem createCommit_empty_ref (env : Env) (self : Repository)
    (author committer : Signature) (message : Str) (tree : Tree) (parents : List Commit)
    (w : World) :
    (self.createCommit env [] author committer message tree parents w).2 =
        w ++ [.git_commit_create
          (self.createCommitArgs [] author committer message tree parents)] ∧
      (self.createCommitArgs [] author committer message tree parents).update_ref =
        some [] ∧
      (env.isError (env.git_commit_create w
          (self.createCommitArgs [] author committer message tree parents)).1 = false →
        (self.createCommit env [] author committer message tree parents w).1 =
          .ok (env.git_commit_create w
            (self.createCommitArgs [] author committer message tree parents)).2) ∧
      (env.isError (env.git_commit_create w
          (self.createCommitArgs [] author committer message tree parents)).1 = true →
        (self.createCommit env [] author committer message tree parents w).1 =
          .error (.git (env.git_commit_create w
            (self.createCommitArgs [] author committer message tree parents)).1)) := by
  refine ⟨createCommit_world .., rfl, ?_, ?_⟩
  · intro h
    simp [Repository.createCommit, Exception.assert, h]
  · intro h
    simp [Repository.createCommit, Exception.assert, h]

/-- Witness of C6, amended: with the empty name the lenient native library
accepts the call and `createCommit` returns the identifier `42` it wrote; the
sample one refuses it and `createCommit` throws `-1`. -/
theorem createCommit_empty_ref_witness :
    (Repository.createCommit lenient (Repository.new (some 1) true) [] ⟨1⟩ ⟨2⟩
        "msg".toList ⟨3⟩ [sampleCommit] []).1 = .ok ⟨[42]⟩ ∧
      (Repository.createCommit posix (Repository.new (some 1) true) [] ⟨1⟩ ⟨2⟩
        "msg".toList ⟨3⟩ [sampleCommit] []).1 = .error (.git (-1)) := by
  constructor
  · exact (createCommit_empty_ref lenient (Repository.new (some 1) true) ⟨1⟩ ⟨2⟩
      "msg".toList ⟨3⟩ [sampleCommit] []).2.2.1 (by rfl)
  · exact (createCommit_empty_ref posix (Repository.new (some 1) true) ⟨1⟩ ⟨2⟩
      "msg".toList ⟨3⟩ [sampleCommit] []).2.2.2 (by rfl)

/-! ## Repository::listTags and Repository::listReferences -/

theorem copyStrings_eq (a : git_strarray) (n : Nat) :
    ∀ (i : Nat) (list : List Str), a.count - i = n →
      copyStrings a i list = list ++ (List.range' i n).map a.strings := by
  induction n with
  | zero =>
    intro i list h
    rw [copyStrings]
    have : ¬ i < a.count := by omega
    simp [this]
  | succ k ih =>
    intro i list h
    rw [copyStrings]
    have hlt : i < a.count := by omega
    simp only [hlt, if_true]
    rw [ih (i + 1) _ (by omega)]
    simp [List.range'_succ]

theorem copyStrings_all (a : git_strarray) :
    copyStrings a 0 [] = (List.range a.count).map a.strings := by
  rw [copyStrings_eq a a.count 0 [] (by omega), List.range_eq_range']
  simp

/-- The list the two listing operations build from a native array. -/
theorem copyStrings_spec (a : git_strarray) :
    (copyStrings a 0 []).length = a.count ∧
      (∀ i : Nat, i < a.count → (copyStrings a 0 [])[i]? = some (a.strings i)) ∧
      copyStrings a 0 [] = (List.range a.count).map a.strings := by
  refine ⟨?_, ?_, copyStrings_all a⟩
  · simp [copyStrings_all]
  · intro i hi
    simp [copyStrings_all, List.getElem?_map, List.getElem?_range hi]

/-- C8. With `(s, a)` the status and string array of the native listing call,
`listTags(pattern)` and `listReferences()` throw `s` and return no list when
`s` is an error status; otherwise they return a list of exactly `a.count`
strings whose element at every index `i` is `a.strings[i]`: the order of the
native array, nothing sorted, dropped or merged. -/
theorem list_spec (env : Env) (self : Repository) (pattern : Str) (w : World) :
    (env.isError (env.git_tag_list_match w pattern self._repo.get).1 = false →
      ∃ l, self.listTags env pattern w = .ok l ∧
        l.length = (env.git_tag_list_match w pattern self._repo.get).2.count ∧
        (∀ i : Nat, i < (env.git_tag_list_match w pattern self._repo.get).2.count →
          l[i]? = some ((env.git_tag_list_match w pattern self._repo.get).2.strings i)) ∧
        l = (List.range (env.git_tag_list_match w pattern self._repo.get).2.count).map
          (env.git_tag_list_match w pattern self._repo.get).2.strings) ∧
    (env.isError (env.git_tag_list_match w pattern self._repo.get).1 = true →
      self.listTags env pattern w =
        .error (.git (env.git_tag_list_match w pattern self._repo.get).1)) ∧
    (env.isError (env.git_reference_list w self._repo.get env.GIT_REF_LISTALL).1 = false →
      ∃ l, self.listReferences env w = .ok l ∧
        l.length = (env.git_reference_list w self._repo.get env.GIT_REF_LISTALL).2.count ∧
        (∀ i : Nat, i < (env.git_reference_list w self._repo.get env.GIT_REF_LISTALL).2.count →
          l[i]? =
            some ((env.git_reference_list w self._repo.get env.GIT_REF_LISTALL).2.strings i)) ∧
        l = (List.range
            (env.git_reference_list w self._repo.get env.GIT_REF_LISTALL).2.count).map
          (env.git_reference_list w self._repo.get env.GIT_REF_LISTALL).2.strings) ∧
    (env.isError (env.git_reference_list w self._repo.get env.GIT_REF_LISTALL).1 = true →
      self.listReferences env w =
        .error (.git (env.git_reference_list w self._repo.get env.GIT_REF_LISTALL).1)) := by
  refine ⟨?_, ?_, ?_, ?_⟩
  · intro h
    obtain ⟨h1, h2, h3⟩ := copyStrings_spec (env.git_tag_list_match w pattern self._repo.get).2
    exact ⟨_, by simp [Repository.listTags, Exception.assert, h], h1, h2, h3⟩
  · intro h
    simp [Repository.listTags, Exception.assert, h]
  · intro h
    obtain ⟨h1, h2, h3⟩ :=
      copyStrings_spec (env.git_reference_list w self._repo.get env.GIT_REF_LISTALL).2
    exact ⟨_, by simp [Repository.listReferences, Exception.assert, h], h1, h2, h3⟩
  · intro h
    simp [Repository.listReferences, Exception.assert, h]

/-- Witness of C8 in the sample environment, whose native array is `v2`, `v1`:
`listTags("*")` and `listReferences()` return `v2`, `v1` in that order, and
`listTags("")`, refused with status `-1`, throws it. -/
theorem list_spec_witness :
    (Repository.new (some 1) true).listTags posix "*".toList [] =
        .ok ["v2".toList, "v1".toList] ∧
      (Repository.new (some 1) true).listReferences posix [] =
        .ok ["v2".toList, "v1".toList] ∧
      (Repository.new (some 1) true).listTags posix [] [] = .error (.git (-1)) := by
  refine ⟨?_, ?_, ?_⟩
  · obtain ⟨l, h1, _, _, h4⟩ :=
      (list_spec posix (Repository.new (some 1) true) "*".toList []).1 (by rfl)
    rw [h1, h4]
    rfl
  · obtain ⟨l, h1, _, _, h4⟩ :=
      (list_spec posix (Repository.new (some 1) true) "*".toList []).2.2.1 (by rfl)
    rw [h1, h4]
    rfl
  · exact (list_spec posix (Repository.new (some 1) true) [] []).2.1 (by rfl)

/-! ## The embedding on concrete inputs -/

theorem shortMessage_sample_crlf :
    (Commit.mk ⟨2, "one\r\ntwo".toList⟩).shortMessage 80 = .ok "one".toList ∧
      (Commit.mk ⟨2, "one\r\ntwo".toList⟩).shortMessage 2 = .ok "on".toList ∧
      (Commit.mk ⟨2, "one\r\ntwo".toList⟩).shortMessage 0 = .ok [] := by
  refine ⟨by rfl, by rfl, by rfl⟩

theorem discover_sample :
    Repository.discover posix "/x/y".toList true ["/a".toList, "/b".toList, "/c".toList] [] =
      (.ok "/x/y/".toList,
        [.git_repository_discover 8 "/x/y".toList true "/a:/b:/c".toList]) := by
  rfl

theorem name_sample_win32 :
    (Repository.new (some 1) true).name win32 [] = .ok "bar".toList := by
  rfl

theorem createCommit_sample :
    Repository.createCommit posix (Repository.new (some 1) true) "HEAD".toList ⟨1⟩ ⟨2⟩
        "msg".toList ⟨3⟩ [sampleCommit, ⟨⟨5, []⟩⟩] [] =
      (.ok ⟨[2]⟩,
        [.git_commit_create ⟨some 1, some "HEAD".toList, 1, 2, none, "msg".toList, 3, 2,
          [sampleCommit.data, ⟨5, []⟩]⟩]) := by
  rfl

end git2
